import Mathlib

/-!
Shallow embedding of the `legacy_game` repository:
* `scripts/background_segmenter.py` — the background segmenter
  (`segment_background`): proportional rescale of a source image to a
  target height followed by a left-to-right fixed-width tiling, emitting
  per-tile metadata.
* `MINI GAME/python_server.py` — the routing logic of
  `GameHTTPRequestHandler.do_GET` and `serve_file`.

Python's float arithmetic in the segmenter (`game_height / original_height`
and the subsequent multiplication) is modelled by exact rational arithmetic
over `ℚ`; `int()` applied to a nonnegative value truncates toward zero,
which is the floor.  Filesystem effects are modelled as an explicit trace
of events.
-/

namespace LegacyGame

namespace Segmenter

/-- Python line: `scale_factor = game_height / original_height`
    (true division, modelled exactly over `ℚ`). -/
def scale_factor (game_height original_height : ℕ) : ℚ :=
  (game_height : ℚ) / (original_height : ℚ)

/-- Python line: `scaled_width = int(original_width * scale_factor)`.
    `int()` truncates toward zero; the value is nonnegative, so this is
    the floor. -/
def scaled_width (original_width game_height original_height : ℕ) : ℕ :=
  (⌊(original_width : ℚ) * scale_factor game_height original_height⌋).toNat

/-- Python line: `num_segments = (scaled_width + segment_width - 1) // segment_width`.
    All quantities are nonnegative and `segment_width ≥ 1` in every run
    considered, so Python's floor division agrees with `Nat` division. -/
def num_segments (scaled_w segment_width : ℕ) : ℕ :=
  (scaled_w + segment_width - 1) / segment_width

/-- Python `f"{i:03d}"`: decimal rendering zero-padded to width 3. -/
def pad3 (i : ℕ) : String :=
  let s := toString i
  if s.length < 3 then String.mk (List.replicate (3 - s.length) '0') ++ s else s

/-- Python line: `segment_filename = f"segment_{i:03d}.png"`. -/
def segment_filename (i : ℕ) : String :=
  "segment_" ++ pad3 i ++ ".png"

/-- The per-tile record `segment_info` appended to `metadata["segments"]`. -/
structure SegmentInfo where
  index : ℕ
  filename : String
  width : ℕ
  height : ℕ
  x_offset : ℕ
  x_position : ℕ
deriving Repr, DecidableEq

/-- Body of the `for i in range(num_segments)` loop: tile geometry and the
    metadata record for tile `i`.  Python lines:
    `left = i * segment_width`, `right = min(left + segment_width, scaled_width)`,
    record with `width = right - left`, `height = scaled_height`,
    `x_offset = left`, `x_position = left`. -/
def segment_info (segment_width scaled_w scaled_height i : ℕ) : SegmentInfo :=
  let left := i * segment_width
  let right := min (left + segment_width) scaled_w
  { index := i
    filename := segment_filename i
    width := right - left
    height := scaled_height
    x_offset := left
    x_position := left }

/-- The `metadata` dictionary assembled by `segment_background` and dumped
    to `metadata.json`. -/
structure Metadata where
  original_dimensions : ℕ × ℕ
  scaled_dimensions : ℕ × ℕ
  segment_width : ℕ
  game_height : ℕ
  scale_factor : ℚ
  num_segments : ℕ
  segments : List SegmentInfo
deriving Repr, DecidableEq

/-- The pure core of `segment_background(input_path, output_dir,
    segment_width, game_height)`: the metadata value computed from the
    source image's dimensions `(original_width, original_height)`. -/
def segment_background (original_width original_height segment_width game_height : ℕ) :
    Metadata :=
  let sf := scale_factor game_height original_height
  let sw := scaled_width original_width game_height original_height
  let sh := game_height
  let n := num_segments sw segment_width
  { original_dimensions := (original_width, original_height)
    scaled_dimensions := (sw, sh)
    segment_width := segment_width
    game_height := game_height
    scale_factor := sf
    num_segments := n
    segments := (List.range n).map (segment_info segment_width sw sh) }

/-- Filesystem / PIL effects performed by `segment_background`, in
    program order. -/
inductive Event where
  | mkdirs (dir : String)
  | openImage (path : String)
  | writeTile (path : String)
  | writeMetadata (path : String)
deriving Repr, DecidableEq

def Event.isMeta : Event → Bool
  | .writeMetadata _ => true
  | _ => false

def Event.isTile : Event → Bool
  | .writeTile _ => true
  | _ => false

/-- Model of `os.path.join(dir, name)` for a relative `name`. -/
def joinPath (dir name : String) : String :=
  dir ++ "/" ++ name

/-- A source image as far as the segmenter's control flow is concerned:
    `none` when `Image.open(input_path)` raises (missing or undecodable
    file), otherwise its pixel dimensions. -/
structure SourceImage where
  width : ℕ
  height : ℕ
deriving Repr, DecidableEq

/-- Trace semantics of one run of `segment_background`:
    `os.makedirs(output_dir, exist_ok=True)` happens first, then
    `Image.open(input_path)`.  If the open raises, the run terminates with
    no result; otherwise every tile is saved in loop order and the
    metadata file is written last.  Returns the event trace together with
    the metadata result (`none` on failure). -/
def segment_background_run (input_path output_dir : String)
    (segment_width game_height : ℕ) (source : Option SourceImage) :
    List Event × Option Metadata :=
  match source with
  | none => ([Event.mkdirs output_dir, Event.openImage input_path], none)
  | some img =>
    let md := segment_background img.width img.height segment_width game_height
    (Event.mkdirs output_dir :: Event.openImage input_path ::
      ((List.range md.num_segments).map
        (fun i => Event.writeTile (joinPath output_dir (segment_filename i))) ++
        [Event.writeMetadata (joinPath output_dir "metadata.json")]),
      some md)

end Segmenter

namespace Server

/-- Outcome of handling a GET request, at the granularity the routing
    logic distinguishes. -/
inductive Response where
  | serveStatic (file : String)
  | notFound
  | serveJson (tag : String)
deriving Repr, DecidableEq

/-- The filesystem visible to the server: the set of files (paths relative
    to the working directory) that exist. -/
def fileExists (fs : List String) (f : String) : Bool :=
  fs.contains f

/-- `SimpleHTTPRequestHandler`'s path translation: the URL path is
    resolved relative to the working directory (leading slash dropped). -/
def translate_path (p : String) : String :=
  p.drop 1

/-- `super().do_GET()` of `SimpleHTTPRequestHandler`: serve the file the
    path translates to if it exists, otherwise respond 404. -/
def super_do_GET (fs : List String) (path : String) : Response :=
  if fileExists fs (translate_path path) then
    Response.serveStatic (translate_path path)
  else
    Response.notFound

/-- `GameHTTPRequestHandler.serve_file(filename)`: if `filename` exists,
    set `self.path` to `'/' + filename` and delegate to the superclass;
    otherwise fall back to `'/game-launcher.html'` and delegate. -/
def serve_file (fs : List String) (filename : String) : Response :=
  if fileExists fs filename then
    super_do_GET fs ("/" ++ filename)
  else
    super_do_GET fs "/game-launcher.html"

/-- `GameHTTPRequestHandler.do_GET`: the route table over the request
    path, falling through to the superclass for any other path. -/
def do_GET (fs : List String) (path : String) : Response :=
  if path = "/" then serve_file fs "localhost-game.html"
  else if path = "/game" then serve_file fs "game-launcher.html"
  else if path = "/original" then serve_file fs "index.html"
  else if path = "/health" then Response.serveJson "health"
  else if path = "/api/stats" then Response.serveJson "stats"
  else super_do_GET fs path

end Server

namespace Segmenter

/-- Evaluation of the float pipeline: `int(W * (T / H))` over exact
    rationals is natural-number division `W * T / H`. -/
theorem scaled_width_eq (W T H : ℕ) : scaled_width W T H = W * T / H := by
  have h : (W : ℚ) * scale_factor T H = ((W * T : ℕ) : ℚ) / ((H : ℕ) : ℚ) := by
    unfold scale_factor; push_cast; ring
  rw [scaled_width, h, Rat.floor_natCast_div_natCast, ← Int.natCast_div, Int.toNat_ofNat]

/-- The tile count covers the scaled width: `scaled_w ≤ num_segments * sw`. -/
theorem le_num_segments_mul (s sw : ℕ) (hsw : 0 < sw) : s ≤ num_segments s sw * sw := by
  unfold num_segments
  rw [Nat.mul_comm]
  have h1 := Nat.div_add_mod (s + sw - 1) sw
  have h2 := Nat.mod_lt (s + sw - 1) hsw
  omega

/-- Every tile index strictly below `num_segments` starts strictly inside
    the scaled width. -/
theorem mul_lt_of_lt_num_segments {s sw i : ℕ} (hsw : 0 < sw)
    (hi : i < num_segments s sw) : i * sw < s := by
  unfold num_segments at hi
  have h : i + 1 ≤ (s + sw - 1) / sw := hi
  rw [Nat.le_div_iff_mul_le hsw] at h
  rw [Nat.succ_mul] at h
  omega

/-- The tile count is zero exactly when the scaled width is zero. -/
theorem num_segments_eq_zero_iff (s sw : ℕ) (hsw : 0 < sw) :
    num_segments s sw = 0 ↔ s = 0 := by
  unfold num_segments
  rw [Nat.div_eq_zero_iff hsw]
  omega

/-- A run of full-width tiles sums to `m * sw` as long as the `m`-th tile
    boundary stays within the scaled width. -/
theorem full_tiles_sum (sw s : ℕ) :
    ∀ m, m * sw ≤ s →
      ((List.range m).map (fun i => min (i * sw + sw) s - i * sw)).sum = m * sw := by
  intro m
  induction m with
  | zero => intro _; simp
  | succ k ih =>
    intro h
    rw [Nat.succ_mul] at h
    rw [List.range_succ, List.map_append, List.sum_append,
      ih (le_trans (Nat.le_add_right _ _) h)]
    have hmin : min (k * sw + sw) s = k * sw + sw := min_eq_left h
    simp only [List.map_cons, List.map_nil, List.sum_cons, List.sum_nil, hmin]
    rw [Nat.succ_mul]
    omega

/-- The widths produced by the crop loop sum to the scaled width. -/
theorem sum_widths (s sw : ℕ) (hsw : 0 < sw) :
    ((List.range (num_segments s sw)).map
      (fun i => min (i * sw + sw) s - i * sw)).sum = s := by
  rcases Nat.eq_zero_or_pos s with hs | hs
  · subst hs
    rw [(num_segments_eq_zero_iff 0 sw hsw).mpr rfl]
    simp
  · have hn : num_segments s sw ≠ 0 := by
      intro h0
      rw [num_segments_eq_zero_iff s sw hsw] at h0
      omega
    obtain ⟨m, hm⟩ := Nat.exists_eq_succ_of_ne_zero hn
    rw [Nat.succ_eq_add_one] at hm
    have hlast : m * sw < s := mul_lt_of_lt_num_segments hsw (by omega)
    have hcover : s ≤ (m + 1) * sw := by
      rw [← hm]; exact le_num_segments_mul s sw hsw
    rw [hm, List.range_succ, List.map_append, List.sum_append,
      full_tiles_sum sw s m (Nat.le_of_lt hlast)]
    have hmin : min (m * sw + sw) s = s := min_eq_right (by rw [Nat.succ_mul] at hcover; omega)
    simp only [List.map_cons, List.map_nil, List.sum_cons, List.sum_nil, hmin]
    omega

/-- The scaled width of the documented 3000×1500 → height-720 scenario. -/
theorem hs3000 : scaled_width 3000 720 1500 = 1440 := by
  rw [scaled_width_eq]

/-- The segment count of the documented scenario. -/
theorem nseg3000 : (segment_background 3000 1500 1200 720).num_segments = 2 := by
  show num_segments (scaled_width 3000 720 1500) 1200 = 2
  rw [hs3000]
  rfl

/-- The segment records of the documented scenario. -/
theorem segments3000 : (segment_background 3000 1500 1200 720).segments
    = [segment_info 1200 1440 720 0, segment_info 1200 1440 720 1] := by
  simp only [segment_background]
  rw [hs3000]
  rfl

set_option maxRecDepth 4000 in
/-- The event trace of a successful run on the documented scenario. -/
theorem run3000_trace :
    (segment_background_run "bg.png" "out" 1200 720 (some ⟨3000, 1500⟩)).1
      = [Event.mkdirs "out", Event.openImage "bg.png",
         Event.writeTile "out/segment_000.png", Event.writeTile "out/segment_001.png",
         Event.writeMetadata "out/metadata.json"] := by
  show Event.mkdirs "out" :: Event.openImage "bg.png" ::
      ((List.range (segment_background 3000 1500 1200 720).num_segments).map
        (fun i => Event.writeTile (joinPath "out" (segment_filename i))) ++
        [Event.writeMetadata (joinPath "out" "metadata.json")]) = _
  rw [nseg3000]
  rfl

/-- In a list whose only metadata-write is the final element, any index
    holding a metadata-write is the final index. -/
theorem meta_index_eq {pre : List Event} {mp : String} {i : ℕ} {e : Event}
    (hpre : ∀ x ∈ pre, Event.isMeta x = false)
    (h : (pre ++ [Event.writeMetadata mp])[i]? = some e)
    (he : Event.isMeta e = true) : i = pre.length := by
  rcases Nat.lt_or_ge i pre.length with hlt | hge
  · rw [List.getElem?_append_left hlt] at h
    have hmem : e ∈ pre := List.getElem?_mem h
    rw [hpre e hmem] at he
    cases he
  · have hb := (List.getElem?_eq_some_iff.mp h).1
    simp only [List.length_append, List.length_cons, List.length_nil] at hb
    omega

/-- In a list ending with a metadata-write, any index holding a tile-write
    lies strictly before the final index. -/
theorem tile_index_lt {pre : List Event} {mp : String} {j : ℕ} {f : Event}
    (h : (pre ++ [Event.writeMetadata mp])[j]? = some f)
    (hf : Event.isTile f = true) : j < pre.length := by
  rcases Nat.lt_or_ge j pre.length with hlt | hge
  · exact hlt
  · have hb := (List.getElem?_eq_some_iff.mp h).1
    simp only [List.length_append, List.length_cons, List.length_nil] at hb
    have hj : j = pre.length := by omega
    subst hj
    rw [List.getElem?_concat_length] at h
    have : Event.writeMetadata mp = f := by injection h
    subst this
    cases hf

/-- Claim C1 is refuted at the concrete source image 5×3 with target
    height 1: the code computes `int(5 * (1/3)) = 1`, while rounding
    `5/3 ≈ 1.667` to nearest gives 2, so the recorded scaled width is not
    `round(W * T / H)`. -/
theorem scaled_width_not_round_counterexample :
    scaled_width 5 1 3 = 1 ∧ round ((5 : ℚ) * scale_factor 1 3) = 2 ∧
    (scaled_width 5 1 3 : ℤ) ≠ round ((5 : ℚ) * scale_factor 1 3) := by
  have h1 : scaled_width 5 1 3 = 1 := by rw [scaled_width_eq]
  have h2 : round ((5 : ℚ) * scale_factor 1 3) = 2 := by
    have h : (5 : ℚ) * scale_factor 1 3 = 5 / 3 := by unfold scale_factor; norm_num
    rw [h, round_eq, Int.floor_eq_iff]
    norm_num
  exact ⟨h1, h2, by rw [h1, h2]; decide⟩

/-- Claim C1 (amended): for every source image `(W, H)` and target height
    `T`, the scaled height recorded in the metadata equals `T` and the
    scaled width equals the truncation `⌊W * T / H⌋` of
    `W * scale_factor` (Python `int()`), not round-to-nearest. -/
theorem scaled_dimensions_floor (W H sw T : ℕ) :
    (segment_background W H sw T).scaled_dimensions = (W * T / H, T) := by
  show (scaled_width W T H, T) = _
  rw [scaled_width_eq]

/-- Claim C2: the widths of the emitted segment records always sum to the
    scaled width recorded in `scaled_dimensions`. -/
theorem segment_widths_sum (W H sw T : ℕ) (hsw : 0 < sw) :
    ((segment_background W H sw T).segments.map (fun r => r.width)).sum
      = (segment_background W H sw T).scaled_dimensions.1 := by
  simp only [segment_background]
  rw [List.map_map]
  have hcomp : ((fun r => r.width) ∘ segment_info sw (scaled_width W T H) T)
      = fun i => min (i * sw + sw) (scaled_width W T H) - i * sw := rfl
  rw [hcomp, sum_widths _ _ hsw]

/-- Witness for Claim C2 at the 3000×1500 scenario. -/
theorem segment_widths_sum_witness :
    ((segment_background 3000 1500 1200 720).segments.map (fun r => r.width)).sum
      = (segment_background 3000 1500 1200 720).scaled_dimensions.1 :=
  segment_widths_sum 3000 1500 1200 720 (by decide)

/-- Claim C3: for positive scaled width and tile width, the recorded
    segment count equals `⌈scaled_width / tile_width⌉`. -/
theorem num_segments_eq_ceil (W H sw T : ℕ) (hsw : 0 < sw)
    (hs : 0 < scaled_width W T H) :
    (segment_background W H sw T).num_segments
      = ⌈(scaled_width W T H : ℚ) / (sw : ℚ)⌉₊ := by
  have hrepr : (segment_background W H sw T).num_segments
      = num_segments (scaled_width W T H) sw := rfl
  rw [hrepr]
  have hn : num_segments (scaled_width W T H) sw ≠ 0 := by
    intro h0
    rw [num_segments_eq_zero_iff _ _ hsw] at h0
    omega
  have hswQ : (0 : ℚ) < (sw : ℚ) := by exact_mod_cast hsw
  symm
  rw [Nat.ceil_eq_iff hn]
  constructor
  · rw [lt_div_iff₀ hswQ]
    have h1 : (num_segments (scaled_width W T H) sw - 1) * sw < scaled_width W T H :=
      mul_lt_of_lt_num_segments hsw (by omega)
    exact_mod_cast h1
  · rw [div_le_iff₀ hswQ]
    exact_mod_cast le_num_segments_mul (scaled_width W T H) sw hsw

/-- Witness for Claim C3 at the exact-multiple case called out by the
    spec: scaled width 2400 with tile width 1200. -/
theorem num_segments_eq_ceil_witness :
    (segment_background 2400 1 1200 1).num_segments
      = ⌈(scaled_width 2400 1 1 : ℚ) / (1200 : ℚ)⌉₊ :=
  num_segments_eq_ceil 2400 1 1200 1 (by decide) (by rw [scaled_width_eq]; decide)

/-- Claim C5 is refuted at the concrete source image 1×1500 with tile
    width 1200 and target height 720, all strictly positive integers: the
    scaled width truncates to 0 and the recorded `num_segments` is 0,
    not ≥ 1. -/
theorem num_segments_zero_counterexample :
    (segment_background 1 1500 1200 720).num_segments = 0 ∧
    ¬ 1 ≤ (segment_background 1 1500 1200 720).num_segments := by
  have h : (segment_background 1 1500 1200 720).num_segments = 0 := by
    show num_segments (scaled_width 1 720 1500) 1200 = 0
    rw [scaled_width_eq]
    rfl
  exact ⟨h, by rw [h]; decide⟩

/-- Claim C5 (amended): the recorded `num_segments` is ≥ 1 whenever the
    tile width is positive and the scaled width `⌊W * T / H⌋` is positive;
    a source whose scaled width truncates to 0 yields 0 segments. -/
theorem num_segments_pos (W H sw T : ℕ) (hsw : 0 < sw)
    (hs : 0 < scaled_width W T H) :
    1 ≤ (segment_background W H sw T).num_segments := by
  have hrepr : (segment_background W H sw T).num_segments
      = num_segments (scaled_width W T H) sw := rfl
  rw [hrepr]
  rcases Nat.eq_zero_or_pos (num_segments (scaled_width W T H) sw) with h0 | h0
  · rw [num_segments_eq_zero_iff _ _ hsw] at h0
    omega
  · omega

/-- Witness for Claim C5's amended theorem at the 3000×1500 scenario. -/
theorem num_segments_pos_witness :
    1 ≤ (segment_background 3000 1500 1200 720).num_segments :=
  num_segments_pos 3000 1500 1200 720 (by decide) (by rw [scaled_width_eq]; decide)

/-- Claim C9: the documented scenario — a 3000×1500 source with tile width
    1200 and target height 720 yields scale factor 0.48, scaled dimensions
    (1440, 720), two segments, of widths 1200 and 240. -/
theorem scenario_3000x1500 :
    (segment_background 3000 1500 1200 720).scale_factor = 48 / 100 ∧
    (segment_background 3000 1500 1200 720).scaled_dimensions = (1440, 720) ∧
    (segment_background 3000 1500 1200 720).num_segments = 2 ∧
    ((segment_background 3000 1500 1200 720).segments.map (fun r => r.width))
      = [1200, 240] := by
  refine ⟨?_, ?_, nseg3000, ?_⟩
  · show scale_factor 720 1500 = 48 / 100
    unfold scale_factor
    norm_num
  · show (scaled_width 3000 720 1500, 720) = (1440, 720)
    rw [hs3000]
  · rw [segments3000]
    rfl

/-- Claim C4: every segment record before the last has width equal to the
    tile width; the last record's width is
    `scaled_width - (num_segments - 1) * tile_width`, strictly positive
    and at most the tile width; every record's height is the scaled
    height. -/
theorem segment_width_fields (W H sw T : ℕ) (hsw : 0 < sw) :
    ∀ i r, (segment_background W H sw T).segments[i]? = some r →
      r.height = T ∧
      (i < (segment_background W H sw T).num_segments - 1 → r.width = sw) ∧
      (i = (segment_background W H sw T).num_segments - 1 →
        r.width = scaled_width W T H
            - ((segment_background W H sw T).num_segments - 1) * sw ∧
        0 < r.width ∧ r.width ≤ sw) := by
  intro i r h
  have hrepr : (segment_background W H sw T).segments
      = (List.range (num_segments (scaled_width W T H) sw)).map
          (segment_info sw (scaled_width W T H) T) := rfl
  have hnrepr : (segment_background W H sw T).num_segments
      = num_segments (scaled_width W T H) sw := rfl
  rw [hrepr, List.getElem?_map] at h
  rcases Nat.lt_or_ge i (num_segments (scaled_width W T H) sw) with hik | hik
  · rw [List.getElem?_range hik, Option.map_some'] at h
    injection h with hr
    subst hr
    have hw : (segment_info sw (scaled_width W T H) T i).width
        = min (i * sw + sw) (scaled_width W T H) - i * sw := rfl
    refine ⟨rfl, fun hlt => ?_, fun heq => ?_⟩
    · have hi1 : i + 1 < num_segments (scaled_width W T H) sw := by
        rw [hnrepr] at hlt
        omega
      have hfull : (i + 1) * sw < scaled_width W T H :=
        mul_lt_of_lt_num_segments hsw hi1
      rw [Nat.succ_mul] at hfull
      rw [hw, min_eq_left (Nat.le_of_lt hfull)]
      omega
    · rw [hnrepr] at heq
      have hstart : i * sw < scaled_width W T H :=
        mul_lt_of_lt_num_segments hsw hik
      have hn1 : num_segments (scaled_width W T H) sw = i + 1 := by omega
      have hcov : scaled_width W T H ≤ i * sw + sw := by
        have hc := le_num_segments_mul (scaled_width W T H) sw hsw
        rw [hn1, Nat.succ_mul] at hc
        exact hc
      refine ⟨?_, ?_, ?_⟩
      · rw [hw, min_eq_right hcov, hnrepr, hn1]
        simp only [Nat.add_sub_cancel]
      · rw [hw, min_eq_right hcov]
        omega
      · rw [hw, min_eq_right hcov]
        omega
  · rw [List.getElem?_eq_none (by simpa [List.length_range] using hik)] at h
    simp at h

/-- Witness for Claim C4 at the last tile of the 3000×1500 scenario. -/
theorem segment_width_fields_witness :
    (segment_info 1200 1440 720 1).height = 720 ∧
    0 < (segment_info 1200 1440 720 1).width := by
  have happ := segment_width_fields 3000 1500 1200 720 (by decide) 1
    (segment_info 1200 1440 720 1) (by rw [segments3000]; decide)
  exact ⟨happ.1, (happ.2.2 (by rw [nseg3000])).2.1⟩

/-- Claim C6: every segment record at index `i` has
    `x_offset = i * tile_width` and an `x_position` field identical to
    `x_offset`. -/
theorem x_offset_x_position (W H sw T : ℕ) :
    ∀ i r, (segment_background W H sw T).segments[i]? = some r →
      r.x_offset = i * sw ∧ r.x_position = r.x_offset := by
  intro i r h
  have hrepr : (segment_background W H sw T).segments
      = (List.range (num_segments (scaled_width W T H) sw)).map
          (segment_info sw (scaled_width W T H) T) := rfl
  rw [hrepr, List.getElem?_map] at h
  rcases Nat.lt_or_ge i (num_segments (scaled_width W T H) sw) with hik | hik
  · rw [List.getElem?_range hik, Option.map_some'] at h
    injection h with hr
    subst hr
    exact ⟨rfl, rfl⟩
  · rw [List.getElem?_eq_none (by simpa [List.length_range] using hik)] at h
    simp at h

/-- Witness for Claim C6 at the second tile of the 3000×1500 scenario. -/
theorem x_offset_x_position_witness :
    (segment_info 1200 1440 720 1).x_offset = 1 * 1200 ∧
    (segment_info 1200 1440 720 1).x_position
      = (segment_info 1200 1440 720 1).x_offset :=
  x_offset_x_position 3000 1500 1200 720 1 (segment_info 1200 1440 720 1)
    (by rw [segments3000]; decide)

/-- Claim C8: on any successful run, the metadata file is written exactly
    once, and every tile write occurs strictly before the metadata write
    in the event trace. -/
theorem metadata_written_once_last (ip od : String) (sw gh : ℕ) (img : SourceImage) :
    ((segment_background_run ip od sw gh (some img)).1.countP Event.isMeta = 1) ∧
    ∀ (i j : ℕ) (e f : Event),
      (segment_background_run ip od sw gh (some img)).1[i]? = some e →
      (segment_background_run ip od sw gh (some img)).1[j]? = some f →
      Event.isMeta e = true → Event.isTile f = true → j < i := by
  have htr : (segment_background_run ip od sw gh (some img)).1
      = (Event.mkdirs od :: Event.openImage ip ::
          (List.range (segment_background img.width img.height sw gh).num_segments).map
            (fun k => Event.writeTile (joinPath od (segment_filename k))))
        ++ [Event.writeMetadata (joinPath od "metadata.json")] := rfl
  have hnometa : ∀ x ∈ (Event.mkdirs od :: Event.openImage ip ::
      (List.range (segment_background img.width img.height sw gh).num_segments).map
        (fun k => Event.writeTile (joinPath od (segment_filename k)))),
      Event.isMeta x = false := by
    intro x hx
    simp only [List.mem_cons, List.mem_map] at hx
    rcases hx with rfl | rfl | ⟨k, _, rfl⟩ <;> rfl
  constructor
  · have h0 : List.countP Event.isMeta (Event.mkdirs od :: Event.openImage ip ::
        (List.range (segment_background img.width img.height sw gh).num_segments).map
          (fun k => Event.writeTile (joinPath od (segment_filename k)))) = 0 :=
      List.countP_eq_zero.mpr (by intro a ha; simp [hnometa a ha])
    rw [htr, List.countP_append, h0]
    rfl
  · intro i j e f hi hj he hf
    rw [htr] at hi hj
    have hieq := meta_index_eq hnometa hi he
    have hjlt := tile_index_lt hj hf
    omega

/-- Witness for Claim C8: on the 3000×1500 scenario's trace, the metadata
    write is unique and the tile write at index 2 precedes it at
    index 4. -/
theorem metadata_written_once_last_witness :
    (segment_background_run "bg.png" "out" 1200 720
      (some ⟨3000, 1500⟩)).1.countP Event.isMeta = 1 ∧ (2 : ℕ) < 4 :=
  ⟨(metadata_written_once_last "bg.png" "out" 1200 720 ⟨3000, 1500⟩).1,
   (metadata_written_once_last "bg.png" "out" 1200 720 ⟨3000, 1500⟩).2 4 2
     (Event.writeMetadata "out/metadata.json") (Event.writeTile "out/segment_000.png")
     (by rw [run3000_trace]; decide) (by rw [run3000_trace]; decide) rfl rfl⟩

/-- Claim C10: the output directory is created first, before the source
    image is opened; when the open fails the run yields no metadata but
    the directory-creation effect has already occurred. -/
theorem mkdirs_before_open (ip od : String) (sw gh : ℕ) (src : Option SourceImage) :
    (segment_background_run ip od sw gh src).1[0]? = some (Event.mkdirs od) ∧
    (segment_background_run ip od sw gh src).1[1]? = some (Event.openImage ip) ∧
    (src = none →
      (segment_background_run ip od sw gh src).2 = none ∧
      Event.mkdirs od ∈ (segment_background_run ip od sw gh src).1) := by
  rcases src with _ | img
  · exact ⟨rfl, rfl, fun _ => ⟨rfl, List.mem_cons_self _ _⟩⟩
  · exact ⟨rfl, by simp [segment_background_run], fun hcon => Option.noConfusion hcon⟩

/-- Witness for Claim C10 at a failing run: the source is unreadable, no
    metadata results, yet the directory creation is in the trace. -/
theorem mkdirs_before_open_witness :
    (segment_background_run "missing.png" "out" 1200 720 none).2 = none ∧
    Event.mkdirs "out" ∈ (segment_background_run "missing.png" "out" 1200 720 none).1 :=
  (mkdirs_before_open "missing.png" "out" 1200 720 none).2.2 rfl

end Segmenter

namespace Server

/-- Claim C7 is refuted at the concrete request path `/missing.png`
    against a working directory that does contain `game-launcher.html`:
    the handler answers 404 instead of falling back to serving
    `game-launcher.html`. -/
theorem unnamed_route_no_fallback_counterexample :
    do_GET ["game-launcher.html"] "/missing.png" = Response.notFound ∧
    Response.notFound ≠ Response.serveStatic "game-launcher.html" := by
  exact ⟨by decide, by decide⟩

/-- Claim C7 (amended): any path outside the five named routes is handled
    by the superclass's generic static lookup relative to the working
    directory, which answers 404 — not a fallback to
    `game-launcher.html` — when the requested file is absent; the
    fallback applies only to the named file routes. -/
theorem unnamed_route_generic_lookup (fs : List String) (path : String)
    (h1 : path ≠ "/") (h2 : path ≠ "/game") (h3 : path ≠ "/original")
    (h4 : path ≠ "/health") (h5 : path ≠ "/api/stats") :
    do_GET fs path = super_do_GET fs path ∧
    (fileExists fs (translate_path path) = false →
      do_GET fs path = Response.notFound) := by
  have hroute : do_GET fs path = super_do_GET fs path := by
    unfold do_GET
    rw [if_neg h1, if_neg h2, if_neg h3, if_neg h4, if_neg h5]
  refine ⟨hroute, fun habs => ?_⟩
  rw [hroute]
  unfold super_do_GET
  rw [habs]
  rfl

/-- Witness for Claim C7's amended theorem: an unnamed path whose file is
    absent from an empty working directory gets a 404. -/
theorem unnamed_route_generic_lookup_witness :
    do_GET [] "/foo" = Response.notFound :=
  (unnamed_route_generic_lookup [] "/foo" (by decide) (by decide) (by decide)
    (by decide) (by decide)).2 rfl

end Server

end LegacyGame
